import Mathlib

/-!
Verification of the cgroups filesystem backend (`pkg/cgroups/fs`: `Apply`,
`data.path`, `data.join`, `data.Cleanup`, the per-subsystem `Set` methods)
and of the engine handler registry (`Register`, `Engine.Register`).

The Go code performs filesystem I/O; we embed it as explicit state passing
over an abstract filesystem state `FS`.  `FS` records the set of existing
directories and the contents of files, together with fault-injection tables
(`failMkdir`, `failWrite`, `failRemove`) that model the environment choosing
to fail a given primitive at a given path, and the host tables consulted by
`cgroups.FindCgroupMountpoint` / `cgroups.GetInitCgroupDir` (`mounts`,
`initDirs`; a subsystem absent from a table models a subsystem that is not
mounted on the host, for which the Go helpers return `cgroups.ErrNotFound`).
Each effectful Go function `f(...) error` becomes a Lean function
`FS → ... → FS × Option GoErr`, returning the updated state together with
the Go error value (`none` = Go `nil`).
-/

/-- Go error values distinguished by the code under verification:
`cgroups.ErrNotFound` (compared with `==` in `perfEventGroup.Set`),
errors satisfying `os.IsExist` (tolerated by `data.join`'s `MkdirAll` guard),
and any other error, carried with its message. -/
inductive GoErr where
  | notFound
  | isExist
  | other (msg : String)
deriving DecidableEq, Repr

/-- Freezer state of the resource spec (spec §3: enum {THAWED, FROZEN}). -/
inductive FreezeState where
  | THAWED
  | FROZEN
deriving DecidableEq, Repr

/-- The resource specification `cgroups.Cgroup`.  `Name`, `Parent` and
`CpuShares` appear in the source under these names; the remaining fields are
modelled from the spec's ResourceSpec (§3), used only by the subsystem
variants whose source is not shown. -/
structure Cgroup where
  Name : String
  Parent : String
  CpuShares : Int
  MemoryLimitBytes : Option Int
  MemorySwapLimitBytes : Option Int
  CpusetCpus : Option String
  CpusetMems : Option String
  BlkioWeight : Option Int
  DeviceRules : List String
  Freeze : FreezeState
deriving DecidableEq, Repr

/-- Abstract filesystem and host state. -/
structure FS where
  /-- absolute paths of existing directories (leaf paths; ancestors implicit) -/
  dirs : List String
  /-- file path ↦ current content -/
  files : List (String × String)
  /-- injected failures of `os.MkdirAll` at a path, with the error returned -/
  failMkdir : List (String × GoErr)
  /-- injected failures of `ioutil.WriteFile` at a file path -/
  failWrite : List (String × GoErr)
  /-- paths at which `os.RemoveAll` fails -/
  failRemove : List String
  /-- subsystem ↦ mountpoint, consulted by `cgroups.FindCgroupMountpoint` -/
  mounts : List (String × String)
  /-- subsystem ↦ init cgroup dir, consulted by `cgroups.GetInitCgroupDir` -/
  initDirs : List (String × String)
deriving DecidableEq, Repr

/-- `filepath.Join`: join non-empty elements with "/" (inputs are clean). -/
def filepathJoin (elems : List String) : String :=
  String.intercalate "/" (elems.filter (fun s => s ≠ ""))

/-- `filepath.Dir`: all but the last path element (computed over the
character list so that it reduces inside the kernel). -/
def filepathDir (p : String) : String :=
  let cs := p.toList
  if cs.contains '/' then
    let pre := ((cs.reverse.dropWhile (fun c => c ≠ '/')).drop 1).reverse
    if pre.isEmpty then "/" else String.mk pre
  else "."

/-- `d` lies in the subtree rooted at `p` (used by `os.RemoveAll`). -/
def underPath (p d : String) : Bool :=
  d = p || (p.toList ++ ['/']).isPrefixOf d.toList

/-- `cgroups.FindCgroupMountpoint(subsystem)`: the mountpoint of the
subsystem's hierarchy, or `cgroups.ErrNotFound` when it is not mounted. -/
def cgroups.FindCgroupMountpoint (fs : FS) (subsystem : String) :
    Except GoErr String :=
  match fs.mounts.lookup subsystem with
  | some m => .ok m
  | none => .error .notFound

/-- `cgroups.GetInitCgroupDir(subsystem)`: the cgroup path the current
process already belongs to in that subsystem, or `cgroups.ErrNotFound`
when the subsystem is not mounted. -/
def cgroups.GetInitCgroupDir (fs : FS) (subsystem : String) :
    Except GoErr String :=
  match fs.initDirs.lookup subsystem with
  | some d => .ok d
  | none => .error .notFound

/-- `os.Stat` used only for existence: succeeds iff the directory exists. -/
def osStat (fs : FS) (p : String) : Option GoErr :=
  if p ∈ fs.dirs then none else some (.other "no such file or directory")

/-- `os.MkdirAll(path, 0755)`: succeeds (recording the directory) unless a
failure is injected at the path; an injected `isExist` failure models the
`os.IsExist` case that `data.join` tolerates. -/
def osMkdirAll (fs : FS) (p : String) : FS × Option GoErr :=
  match fs.failMkdir.lookup p with
  | some e => (fs, some e)
  | none =>
    if p ∈ fs.dirs then (fs, none)
    else ({ fs with dirs := p :: fs.dirs }, none)

/-- Record `content` as the content of file `p`, replacing any previous. -/
def FS.setFile (fs : FS) (p content : String) : FS :=
  { fs with files := (p, content) :: fs.files.filter (fun f => f.1 ≠ p) }

/-- Current content of file `p`. -/
def FS.readFile (fs : FS) (p : String) : Option String :=
  fs.files.lookup p

/-- `writeFile(dir, file, data)` of the source:
`ioutil.WriteFile(filepath.Join(dir, file), []byte(data), 0700)`. -/
def writeFile (fs : FS) (dir file data : String) : FS × Option GoErr :=
  let p := filepathJoin [dir, file]
  match fs.failWrite.lookup p with
  | some e => (fs, some e)
  | none => (fs.setFile p data, none)

/-- `os.RemoveAll(path)`: removes the subtree at `path` (success when
nothing is there) unless a failure is injected at the path. -/
def osRemoveAll (fs : FS) (p : String) : FS × Option GoErr :=
  if p ∈ fs.failRemove then (fs, some (.other "remove failed"))
  else
    ({ fs with
        dirs := fs.dirs.filter (fun d => ¬ underPath p d),
        files := fs.files.filter (fun f => ¬ underPath p f.1) }, none)

/-- The `data` struct of `pkg/cgroups/fs`. -/
structure data where
  root : String
  cgroup : String
  c : Cgroup
  pid : Int
deriving DecidableEq, Repr

/-- `(raw *data) path(subsystem)`:
`filepath.Join(raw.root, subsystem, initPath, raw.cgroup)` after
`cgroups.GetInitCgroupDir(subsystem)`. -/
def data.path (raw : data) (fs : FS) (subsystem : String) :
    Except GoErr String :=
  match cgroups.GetInitCgroupDir fs subsystem with
  | .error err => .error err
  | .ok initPath => .ok (filepathJoin [raw.root, subsystem, initPath, raw.cgroup])

/-- Final step of `data.join`: write the pid to the `cgroup.procs` file of
the resolved directory `p`. -/
def joinWrite (raw : data) (p : String) (fs1 : FS) :
    FS × Except GoErr String :=
  match writeFile fs1 p "cgroup.procs" (toString raw.pid) with
  | (fs2, some err) => (fs2, Except.error err)
  | (fs2, none) => (fs2, Except.ok p)

/-- `(raw *data) join(subsystem)`: resolve the path, `os.MkdirAll` it
tolerating `os.IsExist`, then write the pid to `cgroup.procs`. -/
def data.join (raw : data) (fs : FS) (subsystem : String) :
    FS × Except GoErr String :=
  match raw.path fs subsystem with
  | .error err => (fs, .error err)
  | .ok p =>
    match osMkdirAll fs p with
    | (fs1, some err) =>
      if err = GoErr.isExist then joinWrite raw p fs1 else (fs1, .error err)
    | (fs1, none) => joinWrite raw p fs1

/-- `cpuGroup.Set` (source): always join "cpu"; write `cpu.shares` with
`strconv.FormatInt(CpuShares, 10)` only when `CpuShares != 0`. -/
def cpuGroup.Set (d : data) (fs : FS) : FS × Option GoErr :=
  match d.join fs "cpu" with
  | (fs1, .error err) => (fs1, some err)
  | (fs1, .ok dir) =>
    if d.c.CpuShares ≠ 0 then
      match writeFile fs1 dir "cpu.shares" (toString d.c.CpuShares) with
      | (fs2, some err) => (fs2, some err)
      | (fs2, none) => (fs2, none)
    else (fs1, none)

/-- `perfEventGroup.Set` (source): join "perf_event", returning the error
only when it is not `cgroups.ErrNotFound`. -/
def perfEventGroup.Set (d : data) (fs : FS) : FS × Option GoErr :=
  match d.join fs "perf_event" with
  | (fs1, .error err) =>
    if err ≠ GoErr.notFound then (fs1, some err) else (fs1, none)
  | (fs1, .ok _) => (fs1, none)

/-- Write each device rule in order to `devices.allow`, stopping at the
first error. -/
def writeDeviceRules (fs : FS) (dir : String) : List String → FS × Option GoErr
  | [] => (fs, none)
  | r :: rs =>
    match writeFile fs dir "devices.allow" r with
    | (fs1, some err) => (fs1, some err)
    | (fs1, none) => writeDeviceRules fs1 dir rs

/-- Modelled from the spec: `devicesGroup.Set` is not under src/.  §4.2:
join "devices" always; write the default-deny baseline unconditionally,
then the ordered allow/deny rules as they appear in `DeviceRules`. -/
def devicesGroup.Set (d : data) (fs : FS) : FS × Option GoErr :=
  match d.join fs "devices" with
  | (fs1, .error err) => (fs1, some err)
  | (fs1, .ok dir) =>
    match writeFile fs1 dir "devices.deny" "a" with
    | (fs2, some err) => (fs2, some err)
    | (fs2, none) => writeDeviceRules fs2 dir d.c.DeviceRules

/-- Write `memory.memsw.limit_in_bytes` when the swap limit is present. -/
def memorySwapStep (d : data) (fs : FS) (dir : String) : FS × Option GoErr :=
  match d.c.MemorySwapLimitBytes with
  | none => (fs, none)
  | some n =>
    match writeFile fs dir "memory.memsw.limit_in_bytes" (toString n) with
    | (fs1, some err) => (fs1, some err)
    | (fs1, none) => (fs1, none)

/-- Modelled from the spec: `memoryGroup.Set` is not under src/.  §4.2:
join "memory" always; write `memory.limit_in_bytes` if present, before
`memory.memsw.limit_in_bytes` if present. -/
def memoryGroup.Set (d : data) (fs : FS) : FS × Option GoErr :=
  match d.join fs "memory" with
  | (fs1, .error err) => (fs1, some err)
  | (fs1, .ok dir) =>
    match d.c.MemoryLimitBytes with
    | none => memorySwapStep d fs1 dir
    | some n =>
      match writeFile fs1 dir "memory.limit_in_bytes" (toString n) with
      | (fs2, some err) => (fs2, some err)
      | (fs2, none) => memorySwapStep d fs2 dir

/-- Write `cpuset.mems` when present. -/
def cpusetMemsStep (d : data) (fs : FS) (dir : String) : FS × Option GoErr :=
  match d.c.CpusetMems with
  | none => (fs, none)
  | some s =>
    match writeFile fs dir "cpuset.mems" s with
    | (fs1, some err) => (fs1, some err)
    | (fs1, none) => (fs1, none)

/-- Modelled from the spec: `cpusetGroup.Set` is not under src/.  §4.2:
join "cpuset" always; write `cpuset.cpus` and `cpuset.mems` if present. -/
def cpusetGroup.Set (d : data) (fs : FS) : FS × Option GoErr :=
  match d.join fs "cpuset" with
  | (fs1, .error err) => (fs1, some err)
  | (fs1, .ok dir) =>
    match d.c.CpusetCpus with
    | none => cpusetMemsStep d fs1 dir
    | some s =>
      match writeFile fs1 dir "cpuset.cpus" s with
      | (fs2, some err) => (fs2, some err)
      | (fs2, none) => cpusetMemsStep d fs2 dir

/-- Modelled from the spec: `cpuacctGroup.Set` is not under src/.  §4.2:
pure accounting, join "cpuacct" only. -/
def cpuacctGroup.Set (d : data) (fs : FS) : FS × Option GoErr :=
  match d.join fs "cpuacct" with
  | (fs1, .error err) => (fs1, some err)
  | (fs1, .ok _) => (fs1, none)

/-- Modelled from the spec: `blkioGroup.Set` is not under src/.  §4.2:
join "blkio" always; write `blkio.weight` if present. -/
def blkioGroup.Set (d : data) (fs : FS) : FS × Option GoErr :=
  match d.join fs "blkio" with
  | (fs1, .error err) => (fs1, some err)
  | (fs1, .ok dir) =>
    match d.c.BlkioWeight with
    | none => (fs1, none)
    | some n =>
      match writeFile fs1 dir "blkio.weight" (toString n) with
      | (fs2, some err) => (fs2, some err)
      | (fs2, none) => (fs2, none)

/-- Modelled from the spec: `freezerGroup.Set` is not under src/.  §4.2:
join "freezer" always; write `freezer.state` only when the state is not
THAWED. -/
def freezerGroup.Set (d : data) (fs : FS) : FS × Option GoErr :=
  match d.join fs "freezer" with
  | (fs1, .error err) => (fs1, some err)
  | (fs1, .ok dir) =>
    match d.c.Freeze with
    | .THAWED => (fs1, none)
    | .FROZEN =>
      match writeFile fs1 dir "freezer.state" "FROZEN" with
      | (fs2, some err) => (fs2, some err)
      | (fs2, none) => (fs2, none)

/-- The eight tagged subsystem variants of the `subsystems` slice. -/
inductive subsystem where
  | devices | memory | cpu | cpuset | cpuacct | blkio | perfEvent | freezer
deriving DecidableEq, Repr

/-- Dispatch of the `subsystem` interface method `Set(*data) error`. -/
def subsystem.Set : subsystem → data → FS → FS × Option GoErr
  | .devices => devicesGroup.Set
  | .memory => memoryGroup.Set
  | .cpu => cpuGroup.Set
  | .cpuset => cpusetGroup.Set
  | .cpuacct => cpuacctGroup.Set
  | .blkio => blkioGroup.Set
  | .perfEvent => perfEventGroup.Set
  | .freezer => freezerGroup.Set

/-- The cgroup hierarchy name each variant operates on. -/
def subsystem.name : subsystem → String
  | .devices => "devices"
  | .memory => "memory"
  | .cpu => "cpu"
  | .cpuset => "cpuset"
  | .cpuacct => "cpuacct"
  | .blkio => "blkio"
  | .perfEvent => "perf_event"
  | .freezer => "freezer"

/-- The `subsystems` slice of the source, in its declared order. -/
def subsystems : List subsystem :=
  [.devices, .memory, .cpu, .cpuset, .cpuacct, .blkio, .perfEvent, .freezer]

/-- The `for _, sys := range subsystems` loop of `Apply`: run each `Set`
in order, returning the first error unchanged. -/
def applyLoop (d : data) (fs : FS) : List subsystem → FS × Except GoErr data
  | [] => (fs, .ok d)
  | s :: rest =>
    match s.Set d fs with
    | (fs1, some err) => (fs1, .error err)
    | (fs1, none) => applyLoop d fs1 rest

/-- `Apply(c, pid)` (source): probe the "cpu" mountpoint, take its parent
directory as the root, require it to exist, build the effective hierarchy
path (`Parent/Name` when `Parent` is non-empty), then run every subsystem's
`Set`. -/
def Apply (fs : FS) (c : Cgroup) (pid : Int) : FS × Except GoErr data :=
  match cgroups.FindCgroupMountpoint fs "cpu" with
  | .error err => (fs, .error err)
  | .ok mp =>
    let cgroupRoot := filepathDir mp
    match osStat fs cgroupRoot with
    | some _ => (fs, .error (.other "cgroups fs not found"))
    | none =>
      let cgroup :=
        if c.Parent ≠ "" then filepathJoin [c.Parent, c.Name] else c.Name
      let d : data := ⟨cgroupRoot, cgroup, c, pid⟩
      applyLoop d fs subsystems

/-- The slice built by `data.Cleanup`: `get(sub)` is the resolved path, or
`""` when resolution fails (the error is discarded). -/
def data.cleanupList (raw : data) (fs : FS) : List String :=
  let get := fun (sub : String) =>
    match raw.path fs sub with
    | .ok p => p
    | .error _ => ""
  [get "memory", get "devices", get "cpu", get "cpuset",
   get "cpuacct", get "blkio", get "perf_event", get "freezer"]

/-- Body of the `Cleanup` loop: `os.RemoveAll` the path unless it is empty,
discarding the removal's error. -/
def removeStep (acc : FS) (p : String) : FS :=
  if p ≠ "" then (osRemoveAll acc p).1 else acc

/-- `(raw *data) Cleanup()` (source): `os.RemoveAll` every non-empty path
of the slice, discarding each removal's error, and return `nil`. -/
def data.Cleanup (raw : data) (fs : FS) : FS × Option GoErr :=
  ((raw.cleanupList fs).foldl removeStep fs, none)

/-- `engine.Register` (source): refuse to overwrite an existing global
handler; otherwise add the binding.  The global map is passed explicitly;
handler values are opaque (`H`). -/
def Register {H : Type} (globalHandlers : List (String × H))
    (name : String) (handler : H) : List (String × H) × Option GoErr :=
  if (globalHandlers.lookup name).isSome then
    (globalHandlers,
     some (.other ("Can't overwrite global handler for command " ++ name)))
  else ((name, handler) :: globalHandlers, none)

/-- The fields of `engine.Engine` the registry claims depend on. -/
structure Engine (H : Type) where
  root : String
  handlers : List (String × H)
  id : String

/-- `(eng *Engine) Register` (source): refuse to overwrite an existing
handler of this engine; otherwise add the binding. -/
def Engine.Register {H : Type} (eng : Engine H) (name : String)
    (handler : H) : Engine H × Option GoErr :=
  if (eng.handlers.lookup name).isSome then
    (eng, some (.other ("Can't overwrite handler for command " ++ name)))
  else ({ eng with handlers := (name, handler) :: eng.handlers }, none)

/-! ### Concrete hosts and specs used to evaluate the development -/

/-- Init-path table of a host with all eight subsystems mounted, the
process sitting in each hierarchy's root. -/
def allInit : List (String × String) :=
  [("devices", ""), ("memory", ""), ("cpu", ""), ("cpuset", ""),
   ("cpuacct", ""), ("blkio", ""), ("perf_event", ""), ("freezer", "")]

/-- Init-path table of a host with every subsystem mounted except
perf_event. -/
def sevenInit : List (String × String) :=
  [("devices", ""), ("memory", ""), ("cpu", ""), ("cpuset", ""),
   ("cpuacct", ""), ("blkio", ""), ("freezer", "")]

/-- A minimal resource spec: name "c1", no parent, nothing set. -/
def cAll : Cgroup :=
  ⟨"c1", "", 0, none, none, none, none, none, [], .THAWED⟩

/-- The spec "c1" with 512 cpu shares. -/
def cB : Cgroup :=
  ⟨"c1", "", 512, none, none, none, none, none, [], .THAWED⟩

/-- A healthy host: cgroup root `/cg`, cpu mounted at `/cg/cpu`, all eight
subsystems mounted, no injected failures. -/
def fsAll : FS := ⟨["/cg"], [], [], [], [], [("cpu", "/cg/cpu")], allInit⟩

/-- The same host with perf_event unmounted. -/
def fsNoPerf : FS :=
  ⟨["/cg"], [], [], [], [], [("cpu", "/cg/cpu")], sevenInit⟩

/-- A host with no cpu mountpoint at all. -/
def fsNoMount : FS := ⟨["/cg"], [], [], [], [], [], allInit⟩

/-- A host where writing the membership file of the memory hierarchy for
"c1" fails. -/
def fsB : FS :=
  ⟨["/cg"], [], [], [("/cg/memory/c1/cgroup.procs", GoErr.other "boom")],
   [], [("cpu", "/cg/cpu")], allInit⟩

/-- A host where writing the membership file of the perf_event hierarchy
for "c1" fails (with perf_event mounted). -/
def fsPerfFail : FS :=
  ⟨[], [], [], [("/cg/perf_event/c1/cgroup.procs", GoErr.other "boom")],
   [], [], [("perf_event", "")]⟩

/-- A host where `os.RemoveAll` of the memory directory for "c1" fails,
with that directory and the devices directory present. -/
def fsC : FS :=
  ⟨["/cg/memory/c1", "/cg/devices/c1"], [], [], [], ["/cg/memory/c1"],
   [("cpu", "/cg/cpu")], allInit⟩

/-- The spec "c1" nested under parent "users". -/
def cPar : Cgroup :=
  ⟨"c1", "users", 0, none, none, none, none, none, [], .THAWED⟩

/-- The handle for "c1" under root `/cg` with the minimal spec and pid 7. -/
def dP : data := ⟨"/cg", "c1", cAll, 7⟩

/-- The handle for "c1" under root `/cg` with 512 cpu shares and pid 9. -/
def dCpu : data := ⟨"/cg", "c1", cB, 9⟩

/-- A host exposing only the cpu init path (for exercising `data.join`). -/
def fsCpu : FS := ⟨[], [], [], [], [], [], [("cpu", "")]⟩

/-- An engine with one registered handler, handlers modelled as numbers. -/
def engNat : Engine Nat := ⟨"/var/lib/docker", [("run", 1)], "engineid"⟩

/-! ### Lemmas about the filesystem primitives -/

theorem FS.readFile_setFile_self (fs : FS) (p c : String) :
    (fs.setFile p c).readFile p = some c := by
  simp [FS.setFile, FS.readFile, List.lookup]

theorem writeFile_state (fs : FS) (dir file d : String) :
    ((writeFile fs dir file d).1).dirs = fs.dirs ∧
    ((writeFile fs dir file d).1).failMkdir = fs.failMkdir ∧
    ((writeFile fs dir file d).1).failWrite = fs.failWrite ∧
    ((writeFile fs dir file d).1).failRemove = fs.failRemove ∧
    ((writeFile fs dir file d).1).mounts = fs.mounts ∧
    ((writeFile fs dir file d).1).initDirs = fs.initDirs := by
  simp only [writeFile]
  split <;> exact ⟨rfl, rfl, rfl, rfl, rfl, rfl⟩

theorem osMkdirAll_state (fs : FS) (p : String) :
    ((osMkdirAll fs p).1).files = fs.files ∧
    ((osMkdirAll fs p).1).failMkdir = fs.failMkdir ∧
    ((osMkdirAll fs p).1).failWrite = fs.failWrite ∧
    ((osMkdirAll fs p).1).failRemove = fs.failRemove ∧
    ((osMkdirAll fs p).1).mounts = fs.mounts ∧
    ((osMkdirAll fs p).1).initDirs = fs.initDirs ∧
    fs.dirs ⊆ ((osMkdirAll fs p).1).dirs := by
  simp only [osMkdirAll]
  split
  · exact ⟨rfl, rfl, rfl, rfl, rfl, rfl, fun _ hx => hx⟩
  · split
    · exact ⟨rfl, rfl, rfl, rfl, rfl, rfl, fun _ hx => hx⟩
    · exact ⟨rfl, rfl, rfl, rfl, rfl, rfl, fun _ hx => List.mem_cons_of_mem _ hx⟩

theorem osRemoveAll_state (fs : FS) (p : String) :
    ((osRemoveAll fs p).1).dirs ⊆ fs.dirs ∧
    ((osRemoveAll fs p).1).failMkdir = fs.failMkdir ∧
    ((osRemoveAll fs p).1).failWrite = fs.failWrite ∧
    ((osRemoveAll fs p).1).failRemove = fs.failRemove ∧
    ((osRemoveAll fs p).1).mounts = fs.mounts ∧
    ((osRemoveAll fs p).1).initDirs = fs.initDirs := by
  simp only [osRemoveAll]
  split
  · exact ⟨fun _ hx => hx, rfl, rfl, rfl, rfl, rfl⟩
  · exact ⟨fun _ hx => (List.mem_filter.mp hx).1, rfl, rfl, rfl, rfl, rfl⟩

theorem removeStep_state (fs : FS) (p : String) :
    (removeStep fs p).dirs ⊆ fs.dirs ∧
    (removeStep fs p).failMkdir = fs.failMkdir ∧
    (removeStep fs p).failWrite = fs.failWrite ∧
    (removeStep fs p).failRemove = fs.failRemove ∧
    (removeStep fs p).mounts = fs.mounts ∧
    (removeStep fs p).initDirs = fs.initDirs := by
  unfold removeStep
  split
  · exact osRemoveAll_state fs p
  · exact ⟨fun _ hx => hx, rfl, rfl, rfl, rfl, rfl⟩

/-! ### Lemmas about `data.join` -/

theorem joinWrite_state (raw : data) (p : String) (fs1 : FS) :
    ((joinWrite raw p fs1).1).dirs = fs1.dirs ∧
    ((joinWrite raw p fs1).1).failMkdir = fs1.failMkdir ∧
    ((joinWrite raw p fs1).1).failWrite = fs1.failWrite ∧
    ((joinWrite raw p fs1).1).failRemove = fs1.failRemove ∧
    ((joinWrite raw p fs1).1).mounts = fs1.mounts ∧
    ((joinWrite raw p fs1).1).initDirs = fs1.initDirs := by
  have hw := writeFile_state fs1 p "cgroup.procs" (toString raw.pid)
  unfold joinWrite
  rcases hweq : writeFile fs1 p "cgroup.procs" (toString raw.pid) with ⟨fs2, r⟩
  rw [hweq] at hw
  cases r <;> exact hw

theorem data.join_state (raw : data) (fs : FS) (sub : String) :
    fs.dirs ⊆ ((raw.join fs sub).1).dirs ∧
    ((raw.join fs sub).1).failMkdir = fs.failMkdir ∧
    ((raw.join fs sub).1).failWrite = fs.failWrite ∧
    ((raw.join fs sub).1).failRemove = fs.failRemove ∧
    ((raw.join fs sub).1).mounts = fs.mounts ∧
    ((raw.join fs sub).1).initDirs = fs.initDirs := by
  unfold data.join
  split
  · exact ⟨fun _ hx => hx, rfl, rfl, rfl, rfl, rfl⟩
  · rename_i p hpath
    split
    · rename_i fs1 err hmeq
      have hmk := osMkdirAll_state fs p
      rw [hmeq] at hmk
      obtain ⟨-, hm2, hm3, hm4, hm5, hm6, hm7⟩ := hmk
      obtain ⟨w1, w2, w3, w4, w5, w6⟩ := joinWrite_state raw p fs1
      by_cases hex : err = GoErr.isExist
      · subst hex
        rw [if_pos rfl]
        have hd : fs.dirs ⊆ (joinWrite raw p fs1).1.dirs := by
          rw [w1]; exact hm7
        exact ⟨hd, w2.trans hm2, w3.trans hm3, w4.trans hm4,
               w5.trans hm5, w6.trans hm6⟩
      · rw [if_neg hex]
        exact ⟨hm7, hm2, hm3, hm4, hm5, hm6⟩
    · rename_i fs1 hmeq
      have hmk := osMkdirAll_state fs p
      rw [hmeq] at hmk
      obtain ⟨-, hm2, hm3, hm4, hm5, hm6, hm7⟩ := hmk
      obtain ⟨w1, w2, w3, w4, w5, w6⟩ := joinWrite_state raw p fs1
      have hd : fs.dirs ⊆ (joinWrite raw p fs1).1.dirs := by
        rw [w1]; exact hm7
      exact ⟨hd, w2.trans hm2, w3.trans hm3, w4.trans hm4,
             w5.trans hm5, w6.trans hm6⟩

theorem joinWrite_ok (raw : data) (p : String) (fs1 : FS)
    (hw : fs1.failWrite.lookup (filepathJoin [p, "cgroup.procs"]) = none) :
    joinWrite raw p fs1 =
      (fs1.setFile (filepathJoin [p, "cgroup.procs"]) (toString raw.pid),
       .ok p) := by
  simp only [joinWrite, writeFile, hw]

theorem joinWrite_err (raw : data) (p : String) (fs1 : FS) (e : GoErr)
    (hw : fs1.failWrite.lookup (filepathJoin [p, "cgroup.procs"]) = some e) :
    joinWrite raw p fs1 = (fs1, .error e) := by
  simp only [joinWrite, writeFile, hw]

theorem data.join_ok (raw : data) (fs : FS) (sub p : String)
    (hp : raw.path fs sub = .ok p)
    (hm : fs.failMkdir.lookup p = none)
    (hw : fs.failWrite.lookup (filepathJoin [p, "cgroup.procs"]) = none) :
    raw.join fs sub =
      ((if p ∈ fs.dirs then fs else { fs with dirs := p :: fs.dirs }).setFile
         (filepathJoin [p, "cgroup.procs"]) (toString raw.pid), .ok p) := by
  simp only [data.join, hp, osMkdirAll, hm]
  by_cases hd : p ∈ fs.dirs
  · rw [if_pos hd, if_pos hd]
    exact joinWrite_ok raw p fs hw
  · rw [if_neg hd, if_neg hd]
    exact joinWrite_ok raw p { fs with dirs := p :: fs.dirs } hw

theorem data.join_isExist (raw : data) (fs : FS) (sub p : String)
    (hp : raw.path fs sub = .ok p)
    (hm : fs.failMkdir.lookup p = some GoErr.isExist)
    (hw : fs.failWrite.lookup (filepathJoin [p, "cgroup.procs"]) = none) :
    raw.join fs sub =
      (fs.setFile (filepathJoin [p, "cgroup.procs"]) (toString raw.pid),
       .ok p) := by
  simp only [data.join, hp, osMkdirAll, hm, if_pos rfl]
  exact joinWrite_ok raw p fs hw

theorem data.join_mkdirFail (raw : data) (fs : FS) (sub p : String)
    (e : GoErr) (hp : raw.path fs sub = .ok p)
    (hm : fs.failMkdir.lookup p = some e) (hex : e ≠ GoErr.isExist) :
    raw.join fs sub = (fs, .error e) := by
  simp only [data.join, hp, osMkdirAll, hm, if_neg hex]

theorem data.join_writeFail (raw : data) (fs : FS) (sub p : String)
    (e : GoErr) (hp : raw.path fs sub = .ok p)
    (hm : fs.failMkdir.lookup p = none ∨
          fs.failMkdir.lookup p = some GoErr.isExist)
    (hw : fs.failWrite.lookup (filepathJoin [p, "cgroup.procs"]) = some e) :
    (raw.join fs sub).2 = .error e := by
  rcases hm with hm | hm
  · simp only [data.join, hp, osMkdirAll, hm]
    by_cases hd : p ∈ fs.dirs
    · rw [if_pos hd]
      show (joinWrite raw p fs).2 = Except.error e
      rw [joinWrite_err raw p fs e hw]
    · rw [if_neg hd]
      show (joinWrite raw p { fs with dirs := p :: fs.dirs }).2 = Except.error e
      rw [joinWrite_err raw p { fs with dirs := p :: fs.dirs } e hw]
  · simp only [data.join, hp, osMkdirAll, hm, if_pos rfl]
    show (joinWrite raw p fs).2 = Except.error e
    rw [joinWrite_err raw p fs e hw]

theorem data.join_err (raw : data) (fs : FS) (sub p : String) (fs' : FS)
    (e : GoErr) (hp : raw.path fs sub = .ok p)
    (hj : raw.join fs sub = (fs', .error e)) :
    (fs.failMkdir.lookup p = some e ∧ e ≠ GoErr.isExist) ∨
    fs.failWrite.lookup (filepathJoin [p, "cgroup.procs"]) = some e := by
  cases hmd : fs.failMkdir.lookup p with
  | some e1 =>
    by_cases hex : e1 = GoErr.isExist
    · subst hex
      cases hwl : fs.failWrite.lookup (filepathJoin [p, "cgroup.procs"]) with
      | some e2 =>
        have hv := data.join_writeFail raw fs sub p e2 hp (Or.inr hmd) hwl
        rw [hj] at hv
        simp only at hv
        injection hv with hv
        subst hv
        exact Or.inr rfl
      | none =>
        have hv := data.join_isExist raw fs sub p hp hmd hwl
        rw [hv] at hj
        simp at hj
    · have hv := data.join_mkdirFail raw fs sub p e1 hp hmd hex
      rw [hv] at hj
      simp only [Prod.mk.injEq, Except.error.injEq] at hj
      obtain ⟨-, rfl⟩ := hj
      exact Or.inl ⟨rfl, hex⟩
  | none =>
    cases hwl : fs.failWrite.lookup (filepathJoin [p, "cgroup.procs"]) with
    | some e2 =>
      have hv := data.join_writeFail raw fs sub p e2 hp (Or.inl hmd) hwl
      rw [hj] at hv
      simp only at hv
      injection hv with hv
      subst hv
      exact Or.inr rfl
    | none =>
      have hv := data.join_ok raw fs sub p hp hmd hwl
      rw [hv] at hj
      simp at hj

theorem data.join_procs (raw : data) (fs : FS) (sub : String) (fs1 : FS)
    (p : String) (hj : raw.join fs sub = (fs1, .ok p)) :
    raw.path fs sub = .ok p ∧
    fs1.readFile (filepathJoin [p, "cgroup.procs"]) = some (toString raw.pid) := by
  cases hpp : raw.path fs sub with
  | error err =>
    simp only [data.join, hpp] at hj
    simp at hj
  | ok q =>
    have hqp : q = p ∧
        fs1.readFile (filepathJoin [q, "cgroup.procs"]) =
          some (toString raw.pid) := by
      cases hmd : fs.failMkdir.lookup q with
      | some e1 =>
        by_cases hex : e1 = GoErr.isExist
        · subst hex
          cases hwl : fs.failWrite.lookup (filepathJoin [q, "cgroup.procs"]) with
          | some e2 =>
            have hv := data.join_writeFail raw fs sub q e2 hpp (Or.inr hmd) hwl
            rw [hj] at hv
            simp at hv
          | none =>
            have hv := data.join_isExist raw fs sub q hpp hmd hwl
            rw [hv] at hj
            simp only [Prod.mk.injEq, Except.ok.injEq] at hj
            obtain ⟨rfl, rfl⟩ := hj
            exact ⟨rfl, FS.readFile_setFile_self fs _ _⟩
        · have hv := data.join_mkdirFail raw fs sub q e1 hpp hmd hex
          rw [hv] at hj
          simp at hj
      | none =>
        cases hwl : fs.failWrite.lookup (filepathJoin [q, "cgroup.procs"]) with
        | some e2 =>
          have hv := data.join_writeFail raw fs sub q e2 hpp (Or.inl hmd) hwl
          rw [hj] at hv
          simp at hv
        | none =>
          have hv := data.join_ok raw fs sub q hpp hmd hwl
          rw [hv] at hj
          simp only [Prod.mk.injEq, Except.ok.injEq] at hj
          obtain ⟨rfl, rfl⟩ := hj
          exact ⟨rfl, FS.readFile_setFile_self _ _ _⟩
    obtain ⟨rfl, hr⟩ := hqp
    exact ⟨rfl, hr⟩

/-! ### State evolution of the subsystem `Set` methods -/

/-- `fs'` is reachable from `fs` by `Apply`-side steps: directories only
grow, and the failure-injection and host tables are untouched. -/
def stepOK (fs fs' : FS) : Prop :=
  fs.dirs ⊆ fs'.dirs ∧ fs'.failMkdir = fs.failMkdir ∧
  fs'.failWrite = fs.failWrite ∧ fs'.failRemove = fs.failRemove ∧
  fs'.mounts = fs.mounts ∧ fs'.initDirs = fs.initDirs

theorem stepOK_refl (fs : FS) : stepOK fs fs :=
  ⟨fun _ hx => hx, rfl, rfl, rfl, rfl, rfl⟩

theorem stepOK_trans {a b c : FS} (h1 : stepOK a b) (h2 : stepOK b c) :
    stepOK a c :=
  ⟨List.Subset.trans h1.1 h2.1, h2.2.1.trans h1.2.1,
   h2.2.2.1.trans h1.2.2.1, h2.2.2.2.1.trans h1.2.2.2.1,
   h2.2.2.2.2.1.trans h1.2.2.2.2.1, h2.2.2.2.2.2.trans h1.2.2.2.2.2⟩

theorem stepOK_of_writeFile_eq {fs fs2 : FS} {dir file d : String}
    {r : Option GoErr} (h : writeFile fs dir file d = (fs2, r)) :
    stepOK fs fs2 := by
  have hs := writeFile_state fs dir file d
  rw [h] at hs
  exact ⟨by rw [hs.1]; exact fun _ hx => hx, hs.2.1, hs.2.2.1,
         hs.2.2.2.1, hs.2.2.2.2.1, hs.2.2.2.2.2⟩

theorem stepOK_of_join_eq {raw : data} {fs fs2 : FS} {sub : String}
    {r : Except GoErr String} (h : raw.join fs sub = (fs2, r)) :
    stepOK fs fs2 := by
  have hs := data.join_state raw fs sub
  rw [h] at hs
  exact hs

theorem writeDeviceRules_stepOK (dir : String) :
    ∀ (rs : List String) (fs : FS), stepOK fs ((writeDeviceRules fs dir rs).1) := by
  intro rs
  induction rs with
  | nil => intro fs; exact stepOK_refl fs
  | cons r rs ih =>
    intro fs
    unfold writeDeviceRules
    split
    · rename_i fs1 e hw
      exact stepOK_of_writeFile_eq hw
    · rename_i fs1 hw
      exact stepOK_trans (stepOK_of_writeFile_eq hw) (ih fs1)

theorem memorySwapStep_stepOK (d : data) (fs : FS) (dir : String) :
    stepOK fs ((memorySwapStep d fs dir).1) := by
  unfold memorySwapStep
  split
  · exact stepOK_refl fs
  · split
    · rename_i hw
      exact stepOK_of_writeFile_eq hw
    · rename_i hw
      exact stepOK_of_writeFile_eq hw

theorem cpusetMemsStep_stepOK (d : data) (fs : FS) (dir : String) :
    stepOK fs ((cpusetMemsStep d fs dir).1) := by
  unfold cpusetMemsStep
  split
  · exact stepOK_refl fs
  · split
    · rename_i hw
      exact stepOK_of_writeFile_eq hw
    · rename_i hw
      exact stepOK_of_writeFile_eq hw

theorem subsystem.Set_stepOK (s : subsystem) (d : data) (fs : FS) :
    stepOK fs ((s.Set d fs).1) := by
  cases s with
  | devices =>
    show stepOK fs ((devicesGroup.Set d fs).1)
    unfold devicesGroup.Set
    split
    · rename_i hj
      exact stepOK_of_join_eq hj
    · rename_i fs1 dir hj
      split
      · rename_i hw
        exact stepOK_trans (stepOK_of_join_eq hj) (stepOK_of_writeFile_eq hw)
      · rename_i fs2 hw
        exact stepOK_trans (stepOK_of_join_eq hj)
          (stepOK_trans (stepOK_of_writeFile_eq hw)
            (writeDeviceRules_stepOK dir d.c.DeviceRules fs2))
  | memory =>
    show stepOK fs ((memoryGroup.Set d fs).1)
    unfold memoryGroup.Set
    split
    · rename_i hj
      exact stepOK_of_join_eq hj
    · rename_i fs1 dir hj
      split
      · exact stepOK_trans (stepOK_of_join_eq hj)
          (memorySwapStep_stepOK d fs1 dir)
      · split
        · rename_i hw
          exact stepOK_trans (stepOK_of_join_eq hj) (stepOK_of_writeFile_eq hw)
        · rename_i fs2 hw
          exact stepOK_trans (stepOK_of_join_eq hj)
            (stepOK_trans (stepOK_of_writeFile_eq hw)
              (memorySwapStep_stepOK d fs2 dir))
  | cpu =>
    show stepOK fs ((cpuGroup.Set d fs).1)
    unfold cpuGroup.Set
    split
    · rename_i hj
      exact stepOK_of_join_eq hj
    · rename_i fs1 dir hj
      split
      · split
        · rename_i hw
          exact stepOK_trans (stepOK_of_join_eq hj) (stepOK_of_writeFile_eq hw)
        · rename_i hw
          exact stepOK_trans (stepOK_of_join_eq hj) (stepOK_of_writeFile_eq hw)
      · exact stepOK_of_join_eq hj
  | cpuset =>
    show stepOK fs ((cpusetGroup.Set d fs).1)
    unfold cpusetGroup.Set
    split
    · rename_i hj
      exact stepOK_of_join_eq hj
    · rename_i fs1 dir hj
      split
      · exact stepOK_trans (stepOK_of_join_eq hj)
          (cpusetMemsStep_stepOK d fs1 dir)
      · split
        · rename_i hw
          exact stepOK_trans (stepOK_of_join_eq hj) (stepOK_of_writeFile_eq hw)
        · rename_i fs2 hw
          exact stepOK_trans (stepOK_of_join_eq hj)
            (stepOK_trans (stepOK_of_writeFile_eq hw)
              (cpusetMemsStep_stepOK d fs2 dir))
  | cpuacct =>
    show stepOK fs ((cpuacctGroup.Set d fs).1)
    unfold cpuacctGroup.Set
    split
    · rename_i hj
      exact stepOK_of_join_eq hj
    · rename_i hj
      exact stepOK_of_join_eq hj
  | blkio =>
    show stepOK fs ((blkioGroup.Set d fs).1)
    unfold blkioGroup.Set
    split
    · rename_i hj
      exact stepOK_of_join_eq hj
    · rename_i fs1 dir hj
      split
      · exact stepOK_of_join_eq hj
      · split
        · rename_i hw
          exact stepOK_trans (stepOK_of_join_eq hj) (stepOK_of_writeFile_eq hw)
        · rename_i hw
          exact stepOK_trans (stepOK_of_join_eq hj) (stepOK_of_writeFile_eq hw)
  | perfEvent =>
    show stepOK fs ((perfEventGroup.Set d fs).1)
    unfold perfEventGroup.Set
    split
    · rename_i hj
      split
      · exact stepOK_of_join_eq hj
      · exact stepOK_of_join_eq hj
    · rename_i hj
      exact stepOK_of_join_eq hj
  | freezer =>
    show stepOK fs ((freezerGroup.Set d fs).1)
    unfold freezerGroup.Set
    split
    · rename_i hj
      exact stepOK_of_join_eq hj
    · rename_i fs1 dir hj
      split
      · exact stepOK_of_join_eq hj
      · split
        · rename_i hw
          exact stepOK_trans (stepOK_of_join_eq hj) (stepOK_of_writeFile_eq hw)
        · rename_i hw
          exact stepOK_trans (stepOK_of_join_eq hj) (stepOK_of_writeFile_eq hw)

/-! ### Success of the subsystem `Set` methods when no failure is injected -/

theorem writeFile_ok2 (fs : FS) (dir file d : String)
    (h : fs.failWrite.lookup (filepathJoin [dir, file]) = none) :
    writeFile fs dir file d =
      (fs.setFile (filepathJoin [dir, file]) d, none) := by
  simp only [writeFile, h]

theorem data.join_okE (raw : data) (fs : FS) (sub p : String)
    (hp : raw.path fs sub = .ok p)
    (hm : fs.failMkdir = []) (hw : fs.failWrite = []) :
    ∃ J : FS, raw.join fs sub = (J, .ok p) ∧ p ∈ J.dirs ∧
      J.failMkdir = [] ∧ J.failWrite = [] ∧ J.initDirs = fs.initDirs ∧
      fs.dirs ⊆ J.dirs ∧
      J.readFile (filepathJoin [p, "cgroup.procs"]) = some (toString raw.pid) := by
  have hlm : fs.failMkdir.lookup p = none := by rw [hm]; rfl
  have hlw : fs.failWrite.lookup (filepathJoin [p, "cgroup.procs"]) = none := by
    rw [hw]; rfl
  have hj := data.join_ok raw fs sub p hp hlm hlw
  refine ⟨_, hj, ?_, ?_, ?_, ?_, ?_,
    FS.readFile_setFile_self _ _ _⟩ <;>
    by_cases hd : p ∈ fs.dirs <;>
      simp [FS.setFile, hd, hm, hw, List.subset_cons_self]

theorem writeDeviceRules_none (dir : String) :
    ∀ (rs : List String) (fs : FS), fs.failWrite = [] →
      (writeDeviceRules fs dir rs).2 = none := by
  intro rs
  induction rs with
  | nil => intro fs _; rfl
  | cons r rs ih =>
    intro fs h
    have hlw : fs.failWrite.lookup (filepathJoin [dir, "devices.allow"]) = none := by
      rw [h]; rfl
    simp only [writeDeviceRules, writeFile_ok2 fs dir "devices.allow" r hlw]
    exact ih _ (by simp [FS.setFile, h])

theorem memorySwapStep_none (d : data) (fs : FS) (dir : String)
    (h : fs.failWrite = []) : (memorySwapStep d fs dir).2 = none := by
  cases hms : d.c.MemorySwapLimitBytes with
  | none => simp only [memorySwapStep, hms]
  | some n =>
    have hlw : fs.failWrite.lookup
        (filepathJoin [dir, "memory.memsw.limit_in_bytes"]) = none := by
      rw [h]; rfl
    simp only [memorySwapStep, hms,
      writeFile_ok2 fs dir "memory.memsw.limit_in_bytes" (toString n) hlw]

theorem cpusetMemsStep_none (d : data) (fs : FS) (dir : String)
    (h : fs.failWrite = []) : (cpusetMemsStep d fs dir).2 = none := by
  cases hms : d.c.CpusetMems with
  | none => simp only [cpusetMemsStep, hms]
  | some s =>
    have hlw : fs.failWrite.lookup (filepathJoin [dir, "cpuset.mems"]) = none := by
      rw [h]; rfl
    simp only [cpusetMemsStep, hms, writeFile_ok2 fs dir "cpuset.mems" s hlw]

theorem cpuGroup_Set_ok (d : data) (fs : FS) (p : String)
    (hm : fs.failMkdir = []) (hw : fs.failWrite = [])
    (hp : d.path fs "cpu" = .ok p) :
    (cpuGroup.Set d fs).2 = none ∧ p ∈ ((cpuGroup.Set d fs).1).dirs := by
  obtain ⟨J, hj, hJd, hJm, hJw, hJi, hJsub, hJr⟩ :=
    data.join_okE d fs "cpu" p hp hm hw
  simp only [cpuGroup.Set, hj]
  by_cases hs : d.c.CpuShares ≠ 0
  · rw [if_pos hs]
    have hlw2 : J.failWrite.lookup (filepathJoin [p, "cpu.shares"]) = none := by
      rw [hJw]; rfl
    rw [writeFile_ok2 J p "cpu.shares" (toString d.c.CpuShares) hlw2]
    exact ⟨rfl, hJd⟩
  · rw [if_neg hs]
    exact ⟨rfl, hJd⟩

theorem cpuacctGroup_Set_ok (d : data) (fs : FS) (p : String)
    (hm : fs.failMkdir = []) (hw : fs.failWrite = [])
    (hp : d.path fs "cpuacct" = .ok p) :
    (cpuacctGroup.Set d fs).2 = none ∧ p ∈ ((cpuacctGroup.Set d fs).1).dirs := by
  obtain ⟨J, hj, hJd, _, _, _, _, _⟩ := data.join_okE d fs "cpuacct" p hp hm hw
  simp only [cpuacctGroup.Set, hj]
  exact ⟨by trivial, hJd⟩

theorem devicesGroup_Set_ok (d : data) (fs : FS) (p : String)
    (hm : fs.failMkdir = []) (hw : fs.failWrite = [])
    (hp : d.path fs "devices" = .ok p) :
    (devicesGroup.Set d fs).2 = none ∧ p ∈ ((devicesGroup.Set d fs).1).dirs := by
  obtain ⟨J, hj, hJd, hJm, hJw, hJi, hJsub, hJr⟩ :=
    data.join_okE d fs "devices" p hp hm hw
  simp only [devicesGroup.Set, hj]
  have hlw2 : J.failWrite.lookup (filepathJoin [p, "devices.deny"]) = none := by
    rw [hJw]; rfl
  rw [writeFile_ok2 J p "devices.deny" "a" hlw2]
  have hJw2 : (J.setFile (filepathJoin [p, "devices.deny"]) "a").failWrite = [] := by
    simp [FS.setFile, hJw]
  constructor
  · exact writeDeviceRules_none p d.c.DeviceRules _ hJw2
  · have hstep := writeDeviceRules_stepOK p d.c.DeviceRules
      (J.setFile (filepathJoin [p, "devices.deny"]) "a")
    exact hstep.1 hJd

theorem memoryGroup_Set_ok (d : data) (fs : FS) (p : String)
    (hm : fs.failMkdir = []) (hw : fs.failWrite = [])
    (hp : d.path fs "memory" = .ok p) :
    (memoryGroup.Set d fs).2 = none ∧ p ∈ ((memoryGroup.Set d fs).1).dirs := by
  obtain ⟨J, hj, hJd, hJm, hJw, hJi, hJsub, hJr⟩ :=
    data.join_okE d fs "memory" p hp hm hw
  cases hml : d.c.MemoryLimitBytes with
  | none =>
    simp only [memoryGroup.Set, hj, hml]
    exact ⟨memorySwapStep_none d J p hJw, (memorySwapStep_stepOK d J p).1 hJd⟩
  | some n =>
    have hlw2 : J.failWrite.lookup
        (filepathJoin [p, "memory.limit_in_bytes"]) = none := by
      rw [hJw]; rfl
    simp only [memoryGroup.Set, hj, hml,
      writeFile_ok2 J p "memory.limit_in_bytes" (toString n) hlw2]
    have hKw : (J.setFile (filepathJoin [p, "memory.limit_in_bytes"])
        (toString n)).failWrite = [] := by
      simp [FS.setFile, hJw]
    refine ⟨memorySwapStep_none d _ p hKw, ?_⟩
    exact (memorySwapStep_stepOK d
      (J.setFile (filepathJoin [p, "memory.limit_in_bytes"]) (toString n)) p).1 hJd

theorem cpusetGroup_Set_ok (d : data) (fs : FS) (p : String)
    (hm : fs.failMkdir = []) (hw : fs.failWrite = [])
    (hp : d.path fs "cpuset" = .ok p) :
    (cpusetGroup.Set d fs).2 = none ∧ p ∈ ((cpusetGroup.Set d fs).1).dirs := by
  obtain ⟨J, hj, hJd, hJm, hJw, hJi, hJsub, hJr⟩ :=
    data.join_okE d fs "cpuset" p hp hm hw
  cases hml : d.c.CpusetCpus with
  | none =>
    simp only [cpusetGroup.Set, hj, hml]
    exact ⟨cpusetMemsStep_none d J p hJw, (cpusetMemsStep_stepOK d J p).1 hJd⟩
  | some s =>
    have hlw2 : J.failWrite.lookup (filepathJoin [p, "cpuset.cpus"]) = none := by
      rw [hJw]; rfl
    simp only [cpusetGroup.Set, hj, hml,
      writeFile_ok2 J p "cpuset.cpus" s hlw2]
    have hKw : (J.setFile (filepathJoin [p, "cpuset.cpus"]) s).failWrite = [] := by
      simp [FS.setFile, hJw]
    refine ⟨cpusetMemsStep_none d _ p hKw, ?_⟩
    exact (cpusetMemsStep_stepOK d
      (J.setFile (filepathJoin [p, "cpuset.cpus"]) s) p).1 hJd

theorem blkioGroup_Set_ok (d : data) (fs : FS) (p : String)
    (hm : fs.failMkdir = []) (hw : fs.failWrite = [])
    (hp : d.path fs "blkio" = .ok p) :
    (blkioGroup.Set d fs).2 = none ∧ p ∈ ((blkioGroup.Set d fs).1).dirs := by
  obtain ⟨J, hj, hJd, hJm, hJw, hJi, hJsub, hJr⟩ :=
    data.join_okE d fs "blkio" p hp hm hw
  cases hml : d.c.BlkioWeight with
  | none =>
    simp only [blkioGroup.Set, hj, hml]
    exact ⟨by trivial, hJd⟩
  | some n =>
    have hlw2 : J.failWrite.lookup (filepathJoin [p, "blkio.weight"]) = none := by
      rw [hJw]; rfl
    simp only [blkioGroup.Set, hj, hml,
      writeFile_ok2 J p "blkio.weight" (toString n) hlw2]
    exact ⟨by trivial, hJd⟩

theorem freezerGroup_Set_ok (d : data) (fs : FS) (p : String)
    (hm : fs.failMkdir = []) (hw : fs.failWrite = [])
    (hp : d.path fs "freezer" = .ok p) :
    (freezerGroup.Set d fs).2 = none ∧ p ∈ ((freezerGroup.Set d fs).1).dirs := by
  obtain ⟨J, hj, hJd, hJm, hJw, hJi, hJsub, hJr⟩ :=
    data.join_okE d fs "freezer" p hp hm hw
  cases hml : d.c.Freeze with
  | THAWED =>
    simp only [freezerGroup.Set, hj, hml]
    exact ⟨by trivial, hJd⟩
  | FROZEN =>
    have hlw2 : J.failWrite.lookup (filepathJoin [p, "freezer.state"]) = none := by
      rw [hJw]; rfl
    simp only [freezerGroup.Set, hj, hml,
      writeFile_ok2 J p "freezer.state" "FROZEN" hlw2]
    exact ⟨by trivial, hJd⟩

theorem perfEventGroup_Set_ok (d : data) (fs : FS)
    (hm : fs.failMkdir = []) (hw : fs.failWrite = []) :
    (perfEventGroup.Set d fs).2 = none ∧
    (∀ ip, fs.initDirs.lookup "perf_event" = some ip →
      filepathJoin [d.root, "perf_event", ip, d.cgroup] ∈
        ((perfEventGroup.Set d fs).1).dirs) := by
  cases hlk : fs.initDirs.lookup "perf_event" with
  | none =>
    have hpErr : d.path fs "perf_event" = .error GoErr.notFound := by
      simp only [data.path, cgroups.GetInitCgroupDir, hlk]
    have hjoin : d.join fs "perf_event" = (fs, .error GoErr.notFound) := by
      simp only [data.join, hpErr]
    simp only [perfEventGroup.Set, hjoin]
    constructor
    · simp
    · intro ip hip
      cases hip
  | some ip0 =>
    have hp : d.path fs "perf_event" =
        .ok (filepathJoin [d.root, "perf_event", ip0, d.cgroup]) := by
      simp only [data.path, cgroups.GetInitCgroupDir, hlk]
    obtain ⟨J, hj, hJd, _, _, _, _, _⟩ :=
      data.join_okE d fs "perf_event" _ hp hm hw
    simp only [perfEventGroup.Set, hj]
    constructor
    · trivial
    · intro ip hip
      injection hip with h
      subst h
      exact hJd

theorem subsystem_Set_ok (s : subsystem) (d : data) (fs : FS)
    (hm : fs.failMkdir = []) (hw : fs.failWrite = [])
    (hs : s = subsystem.perfEvent ∨ (fs.initDirs.lookup s.name).isSome = true) :
    (s.Set d fs).2 = none ∧
    (∀ ip, fs.initDirs.lookup s.name = some ip →
      filepathJoin [d.root, s.name, ip, d.cgroup] ∈ ((s.Set d fs).1).dirs) := by
  cases s with
  | perfEvent =>
    simp only [subsystem.Set, subsystem.name]
    exact perfEventGroup_Set_ok d fs hm hw
  | devices =>
    simp only [subsystem.Set, subsystem.name]
    rcases hs with hs | hs
    · exact absurd hs (by decide)
    · simp only [subsystem.name] at hs
      obtain ⟨ip0, hip0⟩ := Option.isSome_iff_exists.mp hs
      have hp : d.path fs "devices" =
          .ok (filepathJoin [d.root, "devices", ip0, d.cgroup]) := by
        simp only [data.path, cgroups.GetInitCgroupDir, hip0]
      have h := devicesGroup_Set_ok d fs _ hm hw hp
      refine ⟨h.1, fun ip hip => ?_⟩
      rw [hip0] at hip
      injection hip with he
      subst he
      exact h.2
  | memory =>
    simp only [subsystem.Set, subsystem.name]
    rcases hs with hs | hs
    · exact absurd hs (by decide)
    · simp only [subsystem.name] at hs
      obtain ⟨ip0, hip0⟩ := Option.isSome_iff_exists.mp hs
      have hp : d.path fs "memory" =
          .ok (filepathJoin [d.root, "memory", ip0, d.cgroup]) := by
        simp only [data.path, cgroups.GetInitCgroupDir, hip0]
      have h := memoryGroup_Set_ok d fs _ hm hw hp
      refine ⟨h.1, fun ip hip => ?_⟩
      rw [hip0] at hip
      injection hip with he
      subst he
      exact h.2
  | cpu =>
    simp only [subsystem.Set, subsystem.name]
    rcases hs with hs | hs
    · exact absurd hs (by decide)
    · simp only [subsystem.name] at hs
      obtain ⟨ip0, hip0⟩ := Option.isSome_iff_exists.mp hs
      have hp : d.path fs "cpu" =
          .ok (filepathJoin [d.root, "cpu", ip0, d.cgroup]) := by
        simp only [data.path, cgroups.GetInitCgroupDir, hip0]
      have h := cpuGroup_Set_ok d fs _ hm hw hp
      refine ⟨h.1, fun ip hip => ?_⟩
      rw [hip0] at hip
      injection hip with he
      subst he
      exact h.2
  | cpuset =>
    simp only [subsystem.Set, subsystem.name]
    rcases hs with hs | hs
    · exact absurd hs (by decide)
    · simp only [subsystem.name] at hs
      obtain ⟨ip0, hip0⟩ := Option.isSome_iff_exists.mp hs
      have hp : d.path fs "cpuset" =
          .ok (filepathJoin [d.root, "cpuset", ip0, d.cgroup]) := by
        simp only [data.path, cgroups.GetInitCgroupDir, hip0]
      have h := cpusetGroup_Set_ok d fs _ hm hw hp
      refine ⟨h.1, fun ip hip => ?_⟩
      rw [hip0] at hip
      injection hip with he
      subst he
      exact h.2
  | cpuacct =>
    simp only [subsystem.Set, subsystem.name]
    rcases hs with hs | hs
    · exact absurd hs (by decide)
    · simp only [subsystem.name] at hs
      obtain ⟨ip0, hip0⟩ := Option.isSome_iff_exists.mp hs
      have hp : d.path fs "cpuacct" =
          .ok (filepathJoin [d.root, "cpuacct", ip0, d.cgroup]) := by
        simp only [data.path, cgroups.GetInitCgroupDir, hip0]
      have h := cpuacctGroup_Set_ok d fs _ hm hw hp
      refine ⟨h.1, fun ip hip => ?_⟩
      rw [hip0] at hip
      injection hip with he
      subst he
      exact h.2
  | blkio =>
    simp only [subsystem.Set, subsystem.name]
    rcases hs with hs | hs
    · exact absurd hs (by decide)
    · simp only [subsystem.name] at hs
      obtain ⟨ip0, hip0⟩ := Option.isSome_iff_exists.mp hs
      have hp : d.path fs "blkio" =
          .ok (filepathJoin [d.root, "blkio", ip0, d.cgroup]) := by
        simp only [data.path, cgroups.GetInitCgroupDir, hip0]
      have h := blkioGroup_Set_ok d fs _ hm hw hp
      refine ⟨h.1, fun ip hip => ?_⟩
      rw [hip0] at hip
      injection hip with he
      subst he
      exact h.2
  | freezer =>
    simp only [subsystem.Set, subsystem.name]
    rcases hs with hs | hs
    · exact absurd hs (by decide)
    · simp only [subsystem.name] at hs
      obtain ⟨ip0, hip0⟩ := Option.isSome_iff_exists.mp hs
      have hp : d.path fs "freezer" =
          .ok (filepathJoin [d.root, "freezer", ip0, d.cgroup]) := by
        simp only [data.path, cgroups.GetInitCgroupDir, hip0]
      have h := freezerGroup_Set_ok d fs _ hm hw hp
      refine ⟨h.1, fun ip hip => ?_⟩
      rw [hip0] at hip
      injection hip with he
      subst he
      exact h.2

/-! ### The `Apply` loop -/

theorem applyLoop_stepOK (d : data) :
    ∀ (l : List subsystem) (fs : FS), stepOK fs ((applyLoop d fs l).1) := by
  intro l
  induction l with
  | nil => intro fs; exact stepOK_refl fs
  | cons s rest ih =>
    intro fs
    have hstep := subsystem.Set_stepOK s d fs
    rcases hseq : s.Set d fs with ⟨fs1, r⟩
    rw [hseq] at hstep
    cases r with
    | some err =>
      simp only [applyLoop, hseq]
      exact hstep
    | none =>
      simp only [applyLoop, hseq]
      exact stepOK_trans hstep (ih fs1)

theorem applyLoop_ok_d (d : data) :
    ∀ (l : List subsystem) (fs fs' : FS) (d' : data),
      applyLoop d fs l = (fs', .ok d') → d' = d := by
  intro l
  induction l with
  | nil =>
    intro fs fs' d' h
    simp only [applyLoop, Prod.mk.injEq, Except.ok.injEq] at h
    exact h.2.symm
  | cons s rest ih =>
    intro fs fs' d' h
    rcases hseq : s.Set d fs with ⟨fs1, r⟩
    cases r with
    | some err =>
      simp only [applyLoop, hseq] at h
      simp at h
    | none =>
      simp only [applyLoop, hseq] at h
      exact ih fs1 fs' d' h

theorem applyLoop_err (d : data) :
    ∀ (l : List subsystem) (fs fs' : FS) (e : GoErr),
      applyLoop d fs l = (fs', .error e) →
      ∃ s, s ∈ l ∧ ∃ fs1 fs2, s.Set d fs1 = (fs2, some e) ∧ fs' = fs2 := by
  intro l
  induction l with
  | nil =>
    intro fs fs' e h
    simp only [applyLoop] at h
    simp at h
  | cons s rest ih =>
    intro fs fs' e h
    rcases hseq : s.Set d fs with ⟨fs1, r⟩
    cases r with
    | some err =>
      simp only [applyLoop, hseq] at h
      simp only [Prod.mk.injEq, Except.error.injEq] at h
      obtain ⟨rfl, rfl⟩ := h
      exact ⟨s, List.mem_cons_self s rest, fs, fs1, hseq, rfl⟩
    | none =>
      simp only [applyLoop, hseq] at h
      obtain ⟨s', hmem, fsa, fsb, hset, rfl⟩ := ih fs1 fs' e h
      exact ⟨s', List.mem_cons_of_mem s hmem, fsa, _, hset, rfl⟩

theorem applyLoop_ok (d : data) :
    ∀ (l : List subsystem) (fs : FS),
      fs.failMkdir = [] → fs.failWrite = [] →
      (∀ s ∈ l, s = subsystem.perfEvent ∨
        (fs.initDirs.lookup s.name).isSome = true) →
      ∃ fs', applyLoop d fs l = (fs', .ok d) ∧
        fs'.failMkdir = [] ∧ fs'.failWrite = [] ∧
        fs'.initDirs = fs.initDirs ∧ fs'.mounts = fs.mounts ∧
        fs'.failRemove = fs.failRemove ∧ fs.dirs ⊆ fs'.dirs ∧
        (∀ s ∈ l, ∀ ip, fs.initDirs.lookup s.name = some ip →
          filepathJoin [d.root, s.name, ip, d.cgroup] ∈ fs'.dirs) := by
  intro l
  induction l with
  | nil =>
    intro fs hm hw _
    exact ⟨fs, rfl, hm, hw, rfl, rfl, rfl, fun _ hx => hx,
           fun s hs => absurd hs (List.not_mem_nil s)⟩
  | cons s rest ih =>
    intro fs hm hw hall
    have hset := subsystem_Set_ok s d fs hm hw (hall s (List.mem_cons_self s rest))
    have hstep := subsystem.Set_stepOK s d fs
    rcases hseq : s.Set d fs with ⟨fs1, r⟩
    rw [hseq] at hset hstep
    have hr : r = none := hset.1
    subst hr
    obtain ⟨hsb, hsm, hsw, hsr, hsmn, hsi⟩ := hstep
    have hall1 : ∀ s' ∈ rest, s' = subsystem.perfEvent ∨
        (fs1.initDirs.lookup s'.name).isSome = true := by
      intro s' hs'
      rcases hall s' (List.mem_cons_of_mem s hs') with h | h
      · exact Or.inl h
      · right; rw [hsi]; exact h
    obtain ⟨fs', hloop, hfm, hfw, hfi, hfmn, hfr, hsub, hmem⟩ :=
      ih fs1 (hsm.trans hm) (hsw.trans hw) hall1
    refine ⟨fs', ?_, hfm, hfw, hfi.trans hsi, hfmn.trans hsmn,
            hfr.trans hsr, List.Subset.trans hsb hsub, ?_⟩
    · simp only [applyLoop, hseq]
      exact hloop
    · intro s' hs' ip hip
      rcases List.mem_cons.mp hs' with rfl | hmem2
      · exact hsub (hset.2 ip hip)
      · refine hmem s' hmem2 ip ?_
        rw [hsi]
        exact hip

theorem Apply_mountFail (fs : FS) (c : Cgroup) (pid : Int)
    (h : fs.mounts.lookup "cpu" = none) :
    Apply fs c pid = (fs, .error GoErr.notFound) := by
  simp only [Apply, cgroups.FindCgroupMountpoint, h]

theorem Apply_statFail (fs : FS) (c : Cgroup) (pid : Int) (mp : String)
    (h1 : fs.mounts.lookup "cpu" = some mp)
    (h2 : filepathDir mp ∉ fs.dirs) :
    Apply fs c pid = (fs, .error (.other "cgroups fs not found")) := by
  simp only [Apply, cgroups.FindCgroupMountpoint, h1, osStat, if_neg h2]

theorem Apply_resolved (fs : FS) (c : Cgroup) (pid : Int) (mp : String)
    (h1 : fs.mounts.lookup "cpu" = some mp)
    (h2 : filepathDir mp ∈ fs.dirs) :
    Apply fs c pid =
      applyLoop
        ⟨filepathDir mp,
         if c.Parent ≠ "" then filepathJoin [c.Parent, c.Name] else c.Name,
         c, pid⟩ fs subsystems := by
  simp only [Apply, cgroups.FindCgroupMountpoint, h1, osStat, if_pos h2]

theorem Apply_dirs_mono (fs : FS) (c : Cgroup) (pid : Int) :
    fs.dirs ⊆ ((Apply fs c pid).1).dirs := by
  cases hlk : fs.mounts.lookup "cpu" with
  | none =>
    rw [Apply_mountFail fs c pid hlk]
    exact fun _ hx => hx
  | some mp =>
    by_cases hd : filepathDir mp ∈ fs.dirs
    · rw [Apply_resolved fs c pid mp hlk hd]
      exact (applyLoop_stepOK _ subsystems fs).1
    · rw [Apply_statFail fs c pid mp hlk hd]
      exact fun _ hx => hx

/-! ### Lemmas about `data.Cleanup` -/

theorem foldl_removeStep_dirs (L : List String) :
    ∀ fs : FS, ((L.foldl removeStep fs)).dirs ⊆ fs.dirs := by
  induction L with
  | nil => intro fs; exact fun _ hx => hx
  | cons r L ih =>
    intro fs
    exact List.Subset.trans (ih (removeStep fs r)) (removeStep_state fs r).1

theorem osRemoveAll_removes (fs : FS) (p : String) (h : p ∉ fs.failRemove) :
    ∀ q, underPath p q = true → q ∉ ((osRemoveAll fs p).1).dirs := by
  intro q hq hmem
  simp only [osRemoveAll, if_neg h] at hmem
  have := (List.mem_filter.mp hmem).2
  simp only [hq] at this
  exact absurd this (by simp)

theorem foldl_removeStep_removes (L : List String) :
    ∀ (fs : FS) (p : String), p ∈ L → p ≠ "" → p ∉ fs.failRemove →
      ∀ q, underPath p q = true → q ∉ ((L.foldl removeStep fs)).dirs := by
  induction L with
  | nil =>
    intro fs p hp
    exact absurd hp (List.not_mem_nil p)
  | cons r L ih =>
    intro fs p hp hne hnf q hq hmem
    rcases List.mem_cons.mp hp with rfl | hp
    · have h1 : q ∉ (removeStep fs p).dirs := by
        unfold removeStep
        rw [if_pos hne]
        exact osRemoveAll_removes fs p hnf q hq
      exact h1 (foldl_removeStep_dirs L (removeStep fs p) hmem)
    · have hnf1 : p ∉ (removeStep fs r).failRemove := by
        rw [(removeStep_state fs r).2.2.2.1]
        exact hnf
      exact ih (removeStep fs r) p hp hne hnf1 q hq hmem

/-! ### The claims -/

/-- C7: `Apply` processes the subsystems in the fixed order devices,
memory, cpu, cpuset, cpuacct, blkio, perf-event, freezer: the `subsystems`
list is this fixed, closed list, and a run of `Apply` on a healthy host
creates the subsystem directories in exactly this order. -/
theorem claim_C7_fixed_order :
    subsystems.map subsystem.name =
      ["devices", "memory", "cpu", "cpuset", "cpuacct", "blkio",
       "perf_event", "freezer"] ∧
    ((Apply fsAll cAll 7).1).dirs.reverse =
      "/cg" :: subsystems.map (fun s => filepathJoin ["/cg", s.name, "c1"]) :=
  ⟨rfl, by decide⟩

/-- C4: whenever the cpu join succeeds, the pid is in the membership file
(even when `CpuShares = 0`, in which case `Set` does nothing beyond the
join), and `cpu.shares` is written with the decimal string of `CpuShares`
exactly when `CpuShares ≠ 0`. -/
theorem claim_C4_cpu_shares (d : data) (fs fs1 : FS) (p : String)
    (hj : d.join fs "cpu" = (fs1, .ok p)) :
    fs1.readFile (filepathJoin [p, "cgroup.procs"]) = some (toString d.pid) ∧
    (d.c.CpuShares = 0 → cpuGroup.Set d fs = (fs1, none)) ∧
    (d.c.CpuShares ≠ 0 →
      fs1.failWrite.lookup (filepathJoin [p, "cpu.shares"]) = none →
      cpuGroup.Set d fs =
        (fs1.setFile (filepathJoin [p, "cpu.shares"])
          (toString d.c.CpuShares), none) ∧
      ((cpuGroup.Set d fs).1).readFile (filepathJoin [p, "cpu.shares"]) =
        some (toString d.c.CpuShares)) := by
  obtain ⟨hp, hread⟩ := data.join_procs d fs "cpu" fs1 p hj
  refine ⟨hread, ?_, ?_⟩
  · intro h0
    simp only [cpuGroup.Set, hj, if_neg (not_not_intro h0)]
  · intro hn hwl
    have heq : cpuGroup.Set d fs =
        (fs1.setFile (filepathJoin [p, "cpu.shares"])
          (toString d.c.CpuShares), none) := by
      simp only [cpuGroup.Set, hj, if_pos hn,
        writeFile_ok2 fs1 p "cpu.shares" (toString d.c.CpuShares) hwl]
    refine ⟨heq, ?_⟩
    rw [heq]
    exact FS.readFile_setFile_self fs1 _ _

/-- Witness for C4 at a concrete host and spec: pid 9 is written to the
cpu membership file and `cpu.shares` gets "512". -/
theorem claim_C4_witness :
    ((dCpu.join fsCpu "cpu").1).readFile "/cg/cpu/c1/cgroup.procs" =
      some "9" ∧
    cpuGroup.Set dCpu fsCpu =
      (((dCpu.join fsCpu "cpu").1).setFile "/cg/cpu/c1/cpu.shares" "512",
       none) := by
  have h := claim_C4_cpu_shares dCpu fsCpu (dCpu.join fsCpu "cpu").1
    "/cg/cpu/c1" rfl
  exact ⟨h.1, (h.2.2 (by decide) rfl).1⟩

/-- C9: given a resolved absolute path, `data.join` creates the directory
if absent and writes the pid as the content of `cgroup.procs`; an
"already exists" answer from `MkdirAll` is tolerated; and an error is
returned only for a non-`IsExist` directory-creation failure or a failure
of the pid write. -/
theorem claim_C9_join (raw : data) (fs : FS) (sub p : String)
    (hp : raw.path fs sub = .ok p) :
    (fs.failMkdir.lookup p = none →
      fs.failWrite.lookup (filepathJoin [p, "cgroup.procs"]) = none →
      ∃ fs', raw.join fs sub = (fs', .ok p) ∧ p ∈ fs'.dirs ∧
        fs'.readFile (filepathJoin [p, "cgroup.procs"]) =
          some (toString raw.pid)) ∧
    (fs.failMkdir.lookup p = some GoErr.isExist →
      fs.failWrite.lookup (filepathJoin [p, "cgroup.procs"]) = none →
      raw.join fs sub =
        (fs.setFile (filepathJoin [p, "cgroup.procs"]) (toString raw.pid),
         .ok p)) ∧
    (∀ fs' e, raw.join fs sub = (fs', .error e) →
      (fs.failMkdir.lookup p = some e ∧ e ≠ GoErr.isExist) ∨
      fs.failWrite.lookup (filepathJoin [p, "cgroup.procs"]) = some e) := by
  refine ⟨?_, data.join_isExist raw fs sub p hp,
          fun fs' e hj => data.join_err raw fs sub p fs' e hp hj⟩
  intro hm hw
  refine ⟨_, data.join_ok raw fs sub p hp hm hw, ?_,
          FS.readFile_setFile_self _ _ _⟩
  by_cases hd : p ∈ fs.dirs <;> simp [FS.setFile, hd]

/-- Witness for C9 at a concrete host: joining cpu for "c1" creates
`/cg/cpu/c1` and writes pid 9 into its membership file. -/
theorem claim_C9_witness :
    ∃ fs', dCpu.join fsCpu "cpu" = (fs', .ok "/cg/cpu/c1") ∧
      "/cg/cpu/c1" ∈ fs'.dirs ∧
      fs'.readFile "/cg/cpu/c1/cgroup.procs" = some "9" := by
  obtain ⟨fs', h1, h2, h3⟩ :=
    (claim_C9_join dCpu fsCpu "cpu" "/cg/cpu/c1" rfl).1 rfl rfl
  exact ⟨fs', h1, h2, h3⟩

/-- C3: `perfEventGroup.Set` swallows exactly the not-mounted error
(`cgroups.ErrNotFound`): on an unmounted perf_event hierarchy it succeeds
leaving the state untouched, and any other join error is propagated. -/
theorem claim_C3_perf_tolerance (d : data) (fs fs1 : FS) (e : GoErr) :
    (fs.initDirs.lookup "perf_event" = none →
      perfEventGroup.Set d fs = (fs, none)) ∧
    (d.join fs "perf_event" = (fs1, .error GoErr.notFound) →
      perfEventGroup.Set d fs = (fs1, none)) ∧
    (d.join fs "perf_event" = (fs1, .error e) → e ≠ GoErr.notFound →
      perfEventGroup.Set d fs = (fs1, some e)) := by
  refine ⟨?_, ?_, ?_⟩
  · intro hlk
    have hpErr : d.path fs "perf_event" = .error GoErr.notFound := by
      simp only [data.path, cgroups.GetInitCgroupDir, hlk]
    have hjoin : d.join fs "perf_event" = (fs, .error GoErr.notFound) := by
      simp only [data.join, hpErr]
    simp only [perfEventGroup.Set, hjoin]
    simp
  · intro hj
    simp only [perfEventGroup.Set, hj]
    simp
  · intro hj hne
    simp only [perfEventGroup.Set, hj, if_pos hne]

/-- Witness for C3: on a host without perf_event the error is swallowed;
on a host where the perf_event membership write fails the error comes
through. -/
theorem claim_C3_witness :
    perfEventGroup.Set dP fsNoPerf = (fsNoPerf, none) ∧
    (perfEventGroup.Set dP fsPerfFail).2 = some (GoErr.other "boom") := by
  constructor
  · exact (claim_C3_perf_tolerance dP fsNoPerf fsNoPerf
      (GoErr.other "x")).1 rfl
  · have h := (claim_C3_perf_tolerance dP fsPerfFail
      (dP.join fsPerfFail "perf_event").1 (GoErr.other "boom")).2.2 rfl
      (by decide)
    rw [h]

/-- C6: root resolution probes the "cpu" mountpoint and uses its parent
directory as the shared root; `Apply` fails with no handle when the
mountpoint is missing or the resolved root does not exist, and on success
the handle's root is exactly that parent directory. -/
theorem claim_C6_root (fs : FS) (c : Cgroup) (pid : Int) :
    (fs.mounts.lookup "cpu" = none →
      Apply fs c pid = (fs, .error GoErr.notFound)) ∧
    (∀ mp, fs.mounts.lookup "cpu" = some mp → filepathDir mp ∉ fs.dirs →
      Apply fs c pid = (fs, .error (.other "cgroups fs not found"))) ∧
    (∀ mp fs' d, fs.mounts.lookup "cpu" = some mp →
      Apply fs c pid = (fs', .ok d) →
      d.root = filepathDir mp ∧ filepathDir mp ∈ fs.dirs) := by
  refine ⟨Apply_mountFail fs c pid,
          fun mp h1 h2 => Apply_statFail fs c pid mp h1 h2, ?_⟩
  intro mp fs' d h1 happ
  by_cases hd : filepathDir mp ∈ fs.dirs
  · rw [Apply_resolved fs c pid mp h1 hd] at happ
    have hde := applyLoop_ok_d _ subsystems fs fs' d happ
    exact ⟨by rw [hde], hd⟩
  · rw [Apply_statFail fs c pid mp h1 hd] at happ
    simp at happ

/-- Witness for C6: a host with no cpu mountpoint makes `Apply` fail with
`ErrNotFound`; on the healthy host the returned handle's root is the
parent directory of the cpu mountpoint. -/
theorem claim_C6_witness :
    Apply fsNoMount cAll 1 = (fsNoMount, .error GoErr.notFound) ∧
    (data.mk "/cg" "c1" cAll 7).root = filepathDir "/cg/cpu" ∧
    filepathDir "/cg/cpu" ∈ fsAll.dirs := by
  refine ⟨(claim_C6_root fsNoMount cAll 1).1 rfl, ?_, ?_⟩
  · exact ((claim_C6_root fsAll cAll 7).2.2 "/cg/cpu" (Apply fsAll cAll 7).1
      (data.mk "/cg" "c1" cAll 7) rfl rfl).1
  · exact ((claim_C6_root fsAll cAll 7).2.2 "/cg/cpu" (Apply fsAll cAll 7).1
      (data.mk "/cg" "c1" cAll 7) rfl rfl).2

/-- C8: a subsystem's absolute directory is
`root/subsystem/initPath/cgroup`, where `cgroup` — the effective hierarchy
path, the same for every subsystem of one call — is `Parent/Name` when the
spec has a parent and `Name` otherwise. -/
theorem claim_C8_path (raw : data) (fs : FS) (c : Cgroup) (pid : Int) :
    (∀ sub ip, fs.initDirs.lookup sub = some ip →
      raw.path fs sub =
        .ok (filepathJoin [raw.root, sub, ip, raw.cgroup])) ∧
    (∀ fs' d, Apply fs c pid = (fs', .ok d) →
      d.cgroup =
        (if c.Parent ≠ "" then filepathJoin [c.Parent, c.Name]
         else c.Name)) := by
  constructor
  · intro sub ip h
    simp only [data.path, cgroups.GetInitCgroupDir, h]
  · intro fs' d happ
    cases hlk : fs.mounts.lookup "cpu" with
    | none =>
      rw [Apply_mountFail fs c pid hlk] at happ
      simp at happ
    | some mp =>
      by_cases hd : filepathDir mp ∈ fs.dirs
      · rw [Apply_resolved fs c pid mp hlk hd] at happ
        have hde := applyLoop_ok_d _ subsystems fs fs' d happ
        rw [hde]
      · rw [Apply_statFail fs c pid mp hlk hd] at happ
        simp at happ

/-- Witness for C8: the memory path for "c1" under `/cg`, and the nested
effective path "users/c1" of a spec with a parent. -/
theorem claim_C8_witness :
    dP.path fsAll "memory" = .ok "/cg/memory/c1" ∧
    (data.mk "/cg" "users/c1" cPar 7).cgroup =
      (if cPar.Parent ≠ "" then filepathJoin [cPar.Parent, cPar.Name]
       else cPar.Name) := by
  constructor
  · exact (claim_C8_path dP fsAll cAll 7).1 "memory" "" rfl
  · exact (claim_C8_path dP fsAll cPar 7).2 (Apply fsAll cPar 7).1
      (data.mk "/cg" "users/c1" cPar 7) rfl

/-- C10: registering a handler under an already-registered name, through
the package-level `Register` or through `Engine.Register`, returns an
error and leaves the registry unchanged, the old handler still bound. -/
theorem claim_C10_register {H : Type} (g : List (String × H))
    (eng : Engine H) (name : String) (h0 handler : H) :
    (g.lookup name = some h0 →
      Register g name handler =
        (g, some (GoErr.other
          ("Can't overwrite global handler for command " ++ name))) ∧
      (Register g name handler).1.lookup name = some h0) ∧
    (eng.handlers.lookup name = some h0 →
      Engine.Register eng name handler =
        (eng, some (GoErr.other
          ("Can't overwrite handler for command " ++ name))) ∧
      ((Engine.Register eng name handler).1).handlers.lookup name =
        some h0) := by
  constructor
  · intro h
    have hx : (g.lookup name).isSome = true := by rw [h]; rfl
    constructor
    · simp only [Register, if_pos hx]
    · simp only [Register, if_pos hx]
      exact h
  · intro h
    have hx : (eng.handlers.lookup name).isSome = true := by rw [h]; rfl
    constructor
    · simp only [Engine.Register, if_pos hx]
    · simp only [Engine.Register, if_pos hx]
      exact h

/-- Witness for C10 on a registry holding "run": re-registration fails and
the original handler survives, for both registries. -/
theorem claim_C10_witness :
    Register [("run", 1)] "run" 2 =
      ([("run", 1)],
       some (GoErr.other "Can't overwrite global handler for command run")) ∧
    Engine.Register engNat "run" 2 =
      (engNat,
       some (GoErr.other "Can't overwrite handler for command run")) ∧
    ((Engine.Register engNat "run" 2).1).handlers.lookup "run" = some 1 := by
  have h1 := (claim_C10_register [("run", 1)] engNat "run" 1 2).1 rfl
  have h2 := (claim_C10_register [("run", 1)] engNat "run" 1 2).2 rfl
  exact ⟨h1.1, h2.1, h2.2⟩

/-- C1 counterexample: on a host where the memory membership write for
"c1" fails after the devices subsystem has already been joined, `Apply`
returns the raw injected error — not an error naming the memory
subsystem — and the devices directory and its membership file are left
behind: partial kernel state persists and no removal happens. -/
theorem claim_C1_counterexample :
    (Apply fsB cAll 7).2 = .error (GoErr.other "boom") ∧
    "/cg/devices/c1" ∈ ((Apply fsB cAll 7).1).dirs ∧
    ((Apply fsB cAll 7).1).readFile "/cg/devices/c1/cgroup.procs" =
      some "7" :=
  ⟨rfl, by decide, rfl⟩

/-- C1 amended: when a subsystem's `Set` fails, `Apply` returns that
subsystem's error unchanged (no wrapping with the subsystem name) and
removes nothing: every directory present before the call — including the
ones just created for previously joined subsystems — survives in the
final state. -/
theorem claim_C1_amended (fs : FS) (c : Cgroup) (pid : Int) (fs' : FS)
    (e : GoErr) (happ : Apply fs c pid = (fs', .error e)) :
    fs.dirs ⊆ fs'.dirs ∧
    (∀ mp, fs.mounts.lookup "cpu" = some mp → filepathDir mp ∈ fs.dirs →
      ∃ s, s ∈ subsystems ∧ ∃ fs1 fs2,
        s.Set
          ⟨filepathDir mp,
           if c.Parent ≠ "" then filepathJoin [c.Parent, c.Name] else c.Name,
           c, pid⟩ fs1 = (fs2, some e) ∧ fs' = fs2) := by
  constructor
  · have hmono := Apply_dirs_mono fs c pid
    rw [happ] at hmono
    exact hmono
  · intro mp h1 h2
    rw [Apply_resolved fs c pid mp h1 h2] at happ
    exact applyLoop_err _ subsystems fs fs' e happ

/-- Witness for C1 amended, on the host with the failing memory write:
the pre-existing root directory survives the failed `Apply`, and the
returned error is exactly the one produced by some subsystem's `Set`. -/
theorem claim_C1_amended_witness :
    "/cg" ∈ ((Apply fsB cAll 7).1).dirs ∧
    (∃ s, s ∈ subsystems ∧ ∃ fs1 fs2,
      s.Set
        ⟨filepathDir "/cg/cpu",
         if cAll.Parent ≠ "" then filepathJoin [cAll.Parent, cAll.Name]
         else cAll.Name,
         cAll, 7⟩ fs1 = (fs2, some (GoErr.other "boom")) ∧
      (Apply fsB cAll 7).1 = fs2) := by
  have h := claim_C1_amended fsB cAll 7 (Apply fsB cAll 7).1
    (GoErr.other "boom") rfl
  exact ⟨h.1 (by decide), h.2 "/cg/cpu" rfl (by decide)⟩

/-- C2 counterexample: `Cleanup` returns nil even though the memory
directory of "c1" could not be removed (it is in the removal list and
still exists afterwards), so the nil result does not imply that every
removal succeeded, and no error reports the failed subsystem. -/
theorem claim_C2_counterexample :
    (dP.Cleanup fsC).2 = none ∧
    "/cg/memory/c1" ∈ dP.cleanupList fsC ∧
    "/cg/memory/c1" ∈ ((dP.Cleanup fsC).1).dirs :=
  ⟨rfl, by decide, by decide⟩

/-- C2 amended: `Cleanup` attempts every entry of its fixed eight-entry
path list — a failed removal does not stop the later ones, and every
removable listed directory is removed — but it discards all removal
errors and always returns nil, even when directories remain. -/
theorem claim_C2_amended (raw : data) (fs : FS) :
    (raw.Cleanup fs).2 = none ∧
    (∀ p ∈ raw.cleanupList fs, p ≠ "" → p ∉ fs.failRemove →
      ∀ q, underPath p q = true → q ∉ ((raw.Cleanup fs).1).dirs) := by
  refine ⟨rfl, ?_⟩
  intro p hp hne hnf q hq
  exact foldl_removeStep_removes (raw.cleanupList fs) fs p hp hne hnf q hq

/-- Witness for C2 amended: on the host where removing the memory
directory fails, the devices directory — later in the list — is still
removed, and `Cleanup` still returns nil. -/
theorem claim_C2_amended_witness :
    (dP.Cleanup fsC).2 = none ∧
    "/cg/devices/c1" ∉ ((dP.Cleanup fsC).1).dirs := by
  have h := claim_C2_amended dP fsC
  exact ⟨h.1, h.2 "/cg/devices/c1" (by decide) (by decide) (by decide)
    "/cg/devices/c1" (by decide)⟩

/-- C5: when only perf_event is unmounted (and nothing else fails),
`Apply` still succeeds; at cleanup time the handle resolves no path for
perf_event (its slot in the removal list is empty), and every non-empty
entry of the removal list is the directory of one of the seven subsystems
that were actually joined, each of which exists in the final state. -/
theorem claim_C5_perf_unmounted (fs : FS) (c : Cgroup) (pid : Int)
    (mp : String) (hm : fs.failMkdir = []) (hw : fs.failWrite = [])
    (hcpu : fs.mounts.lookup "cpu" = some mp)
    (hroot : filepathDir mp ∈ fs.dirs)
    (hperf : fs.initDirs.lookup "perf_event" = none)
    (hsub : ∀ s ∈ subsystems, s ≠ subsystem.perfEvent →
      (fs.initDirs.lookup s.name).isSome = true) :
    ∃ fs' d, Apply fs c pid = (fs', .ok d) ∧
      d.path fs' "perf_event" = .error GoErr.notFound ∧
      (∀ q ∈ d.cleanupList fs', q ≠ "" →
        ∃ s, s ∈ subsystems ∧ s ≠ subsystem.perfEvent ∧
          d.path fs' s.name = .ok q ∧ q ∈ fs'.dirs) := by
  have happ := Apply_resolved fs c pid mp hcpu hroot
  have hall : ∀ s ∈ subsystems, s = subsystem.perfEvent ∨
      (fs.initDirs.lookup s.name).isSome = true := by
    intro s hs
    by_cases hpe : s = subsystem.perfEvent
    · exact Or.inl hpe
    · exact Or.inr (hsub s hs hpe)
  obtain ⟨fs', hloop, hfm, hfw, hfi, hfmn, hfr, hsubd, hmem⟩ :=
    applyLoop_ok
      ⟨filepathDir mp,
       if c.Parent ≠ "" then filepathJoin [c.Parent, c.Name] else c.Name,
       c, pid⟩ subsystems fs hm hw hall
  refine ⟨fs', _, by rw [happ]; exact hloop, ?_, ?_⟩
  · have hlk : fs'.initDirs.lookup "perf_event" = none := by
      rw [hfi]; exact hperf
    simp only [data.path, cgroups.GetInitCgroupDir, hlk]
  · obtain ⟨ipMem, hipMem⟩ := Option.isSome_iff_exists.mp
      (hsub subsystem.memory (by decide) (by decide))
    obtain ⟨ipDev, hipDev⟩ := Option.isSome_iff_exists.mp
      (hsub subsystem.devices (by decide) (by decide))
    obtain ⟨ipCpu, hipCpu⟩ := Option.isSome_iff_exists.mp
      (hsub subsystem.cpu (by decide) (by decide))
    obtain ⟨ipCpuset, hipCpuset⟩ := Option.isSome_iff_exists.mp
      (hsub subsystem.cpuset (by decide) (by decide))
    obtain ⟨ipCpuacct, hipCpuacct⟩ := Option.isSome_iff_exists.mp
      (hsub subsystem.cpuacct (by decide) (by decide))
    obtain ⟨ipBlkio, hipBlkio⟩ := Option.isSome_iff_exists.mp
      (hsub subsystem.blkio (by decide) (by decide))
    obtain ⟨ipFreezer, hipFreezer⟩ := Option.isSome_iff_exists.mp
      (hsub subsystem.freezer (by decide) (by decide))
    have hlkP : fs'.initDirs.lookup "perf_event" = none := by
      rw [hfi]; exact hperf
    have hpP : (⟨filepathDir mp,
        if c.Parent ≠ "" then filepathJoin [c.Parent, c.Name] else c.Name,
        c, pid⟩ : data).path fs' "perf_event" = .error GoErr.notFound := by
      simp only [data.path, cgroups.GetInitCgroupDir, hlkP]
    have hpath : ∀ nm ip, fs.initDirs.lookup nm = some ip →
        (⟨filepathDir mp,
          if c.Parent ≠ "" then filepathJoin [c.Parent, c.Name] else c.Name,
          c, pid⟩ : data).path fs' nm =
        .ok (filepathJoin [filepathDir mp, nm, ip,
          if c.Parent ≠ "" then filepathJoin [c.Parent, c.Name] else c.Name]) := by
      intro nm ip hip
      have hlk : fs'.initDirs.lookup nm = some ip := by rw [hfi]; exact hip
      simp only [data.path, cgroups.GetInitCgroupDir, hlk]
    intro q hq hqne
    simp only [data.cleanupList, List.mem_cons, List.not_mem_nil,
      or_false] at hq
    rcases hq with rfl | rfl | rfl | rfl | rfl | rfl | rfl | rfl
    · refine ⟨subsystem.memory, by decide, by decide, ?_, ?_⟩
      · simp only [subsystem.name]
        rw [hpath "memory" ipMem hipMem]
        try rfl
      · rw [hpath "memory" ipMem hipMem]
        exact hmem subsystem.memory (by decide) ipMem hipMem
    · refine ⟨subsystem.devices, by decide, by decide, ?_, ?_⟩
      · simp only [subsystem.name]
        rw [hpath "devices" ipDev hipDev]
        try rfl
      · rw [hpath "devices" ipDev hipDev]
        exact hmem subsystem.devices (by decide) ipDev hipDev
    · refine ⟨subsystem.cpu, by decide, by decide, ?_, ?_⟩
      · simp only [subsystem.name]
        rw [hpath "cpu" ipCpu hipCpu]
        try rfl
      · rw [hpath "cpu" ipCpu hipCpu]
        exact hmem subsystem.cpu (by decide) ipCpu hipCpu
    · refine ⟨subsystem.cpuset, by decide, by decide, ?_, ?_⟩
      · simp only [subsystem.name]
        rw [hpath "cpuset" ipCpuset hipCpuset]
        try rfl
      · rw [hpath "cpuset" ipCpuset hipCpuset]
        exact hmem subsystem.cpuset (by decide) ipCpuset hipCpuset
    · refine ⟨subsystem.cpuacct, by decide, by decide, ?_, ?_⟩
      · simp only [subsystem.name]
        rw [hpath "cpuacct" ipCpuacct hipCpuacct]
        try rfl
      · rw [hpath "cpuacct" ipCpuacct hipCpuacct]
        exact hmem subsystem.cpuacct (by decide) ipCpuacct hipCpuacct
    · refine ⟨subsystem.blkio, by decide, by decide, ?_, ?_⟩
      · simp only [subsystem.name]
        rw [hpath "blkio" ipBlkio hipBlkio]
        try rfl
      · rw [hpath "blkio" ipBlkio hipBlkio]
        exact hmem subsystem.blkio (by decide) ipBlkio hipBlkio
    · exact absurd (by rw [hpP]) hqne
    · refine ⟨subsystem.freezer, by decide, by decide, ?_, ?_⟩
      · simp only [subsystem.name]
        rw [hpath "freezer" ipFreezer hipFreezer]
        try rfl
      · rw [hpath "freezer" ipFreezer hipFreezer]
        exact hmem subsystem.freezer (by decide) ipFreezer hipFreezer

/-- Witness for C5: on the host with everything but perf_event mounted,
`Apply` succeeds and the cleanup list touches only joined subsystems. -/
theorem claim_C5_witness :
    ∃ fs' d, Apply fsNoPerf cAll 7 = (fs', .ok d) ∧
      d.path fs' "perf_event" = .error GoErr.notFound ∧
      (∀ q ∈ d.cleanupList fs', q ≠ "" →
        ∃ s, s ∈ subsystems ∧ s ≠ subsystem.perfEvent ∧
          d.path fs' s.name = .ok q ∧ q ∈ fs'.dirs) :=
  claim_C5_perf_unmounted fsNoPerf cAll 7 "/cg/cpu" rfl rfl rfl (by decide)
    rfl (by decide)
